import Mathlib

/-
  Verification of the glasso regression-diagnostics library.

  The Go sources are embedded shallowly: matrices held in a mat64.Dense
  appear either as row-major `List (List ℚ)` (when the code mutates rows
  and columns in place) or as Mathlib `Matrix (Fin n) (Fin n) ℚ` (when
  the code only multiplies and transposes).  Floating-point numbers are
  idealised as rationals; square roots and correlations, which leave ℚ,
  are abstract parameters and are never relied upon by any theorem.
  Functions of the repository whose source file is not available (the
  OLS fit itself and small utility helpers) are modelled from the
  specification and are marked as such in their doc comments.
-/

/-- The error taxonomy named by the specification (section 7) together with
the dimension error declared in the data-frame source. -/
inductive GlassoError where
  | DimensionError
  | LabelError
  | RankDeficiencyError
  | SingularMatrixError
  | InsufficientDataError
  | NonConvergenceError
deriving DecidableEq

/-- The printed message of an error, used where the Go code panics with the
error value.  Only `DimensionError` carries source-given text (df.go). -/
def GlassoError.message : GlassoError → String
  | .DimensionError => "Error caused by wrong dimensionality"
  | .LabelError => "Missing labels for columns"
  | .RankDeficiencyError => "rank deficient"
  | .SingularMatrixError => "singular matrix"
  | .InsufficientDataError => "insufficient data"
  | .NonConvergenceError => "no convergence"

/-- Column extraction of a row-major matrix: `df.data.Col(buf, j)`.
Out-of-range positions read the zero that a fresh buffer holds. -/
def matCol (m : List (List ℚ)) (j : Nat) : List ℚ :=
  m.map (fun r => r.getD j 0)

/-- Column replacement of a row-major matrix: `df.data.SetCol(j, v)`. -/
def matSetCol (m : List (List ℚ)) (j : Nat) (v : List ℚ) : List (List ℚ) :=
  (m.zip v).map (fun rv => rv.1.set j rv.2)

/-- The data frame of df.go: a row-major matrix with its recorded shape
and column labels. -/
structure DataFrame where
  data : List (List ℚ)
  rows : Nat
  cols : Nat
  labels : List String

/-- `DataFrame.Transform` from df.go: for each listed column index, read
the column into a buffer, apply `f` to every entry of the buffer, and
write the buffer back as the new column. -/
def DataFrame.Transform (df : DataFrame) (f : ℚ → ℚ) (cs : List Nat) : DataFrame :=
  { df with data := cs.foldl (fun d c => matSetCol d c ((matCol d c).map f)) df.data }

/-- One `Transform` step acts on every row separately. -/
lemma transform_step_eq (m : List (List ℚ)) (f : ℚ → ℚ) (c : Nat) :
    matSetCol m c ((matCol m c).map f) = m.map (fun r => r.set c (f (r.getD c 0))) := by
  induction m with
  | nil => rfl
  | cons r rs ih =>
    simp only [matCol, List.map_cons, matSetCol, List.zip_cons_cons] at *
    simpa using ih

lemma getD_set_ne (r : List ℚ) (c j : Nat) (x : ℚ) (h : j ≠ c) :
    (r.set c x).getD j 0 = r.getD j 0 := by
  induction r generalizing c j with
  | nil => rfl
  | cons a as ih =>
    cases c with
    | zero =>
      cases j with
      | zero => exact absurd rfl h
      | succ j => simp [List.set, List.getD]
    | succ c =>
      cases j with
      | zero => simp [List.set, List.getD]
      | succ j => simp only [List.set, List.getD_cons_succ]; exact ih c j (by omega)

lemma getD_set_eq (r : List ℚ) (c : Nat) (x : ℚ) (h : c < r.length) :
    (r.set c x).getD c 0 = x := by
  induction r generalizing c with
  | nil => simp at h
  | cons a as ih =>
    cases c with
    | zero => simp [List.set, List.getD]
    | succ c =>
      simp only [List.set, List.getD_cons_succ]
      exact ih c (by simpa using h)

/-- Reading a column other than the transformed one gives the old column. -/
lemma matCol_step_ne (m : List (List ℚ)) (f : ℚ → ℚ) (c j : Nat) (h : j ≠ c) :
    matCol (matSetCol m c ((matCol m c).map f)) j = matCol m j := by
  rw [transform_step_eq]
  simp only [matCol, List.map_map]
  exact List.map_congr_left fun r hr => getD_set_ne r c j _ h

/-- Reading the transformed column gives the old column mapped through `f`,
provided the column index is inside every row. -/
lemma matCol_step_eq (m : List (List ℚ)) (f : ℚ → ℚ) (c : Nat) (P : Nat)
    (hwf : ∀ r ∈ m, r.length = P) (hc : c < P) :
    matCol (matSetCol m c ((matCol m c).map f)) c = (matCol m c).map f := by
  rw [transform_step_eq]
  simp only [matCol, List.map_map]
  exact List.map_congr_left fun r hr => getD_set_eq r c _ (by rw [hwf r hr]; exact hc)

lemma transform_fold_wf (f : ℚ → ℚ) (cs : List Nat) (m : List (List ℚ)) (P : Nat)
    (hwf : ∀ r ∈ m, r.length = P) :
    ∀ r ∈ cs.foldl (fun d c => matSetCol d c ((matCol d c).map f)) m, r.length = P := by
  induction cs generalizing m with
  | nil => simpa using hwf
  | cons c cs ih =>
    simp only [List.foldl_cons]
    refine ih _ ?_
    rw [transform_step_eq]
    intro r hr
    rcases List.mem_map.mp hr with ⟨r0, hr0, rfl⟩
    simpa using hwf r0 hr0

lemma transform_fold_length (f : ℚ → ℚ) (cs : List Nat) (m : List (List ℚ)) :
    (cs.foldl (fun d c => matSetCol d c ((matCol d c).map f)) m).length = m.length := by
  induction cs generalizing m with
  | nil => rfl
  | cons c cs ih =>
    simp only [List.foldl_cons]
    rw [ih, transform_step_eq, List.length_map]

/-- Every column of the transformed frame: `f` is applied once per
occurrence of the column's index in the argument list. -/
lemma transform_fold_col (f : ℚ → ℚ) (cs : List Nat) (m : List (List ℚ)) (P : Nat)
    (hwf : ∀ r ∈ m, r.length = P) (hcs : ∀ c ∈ cs, c < P) (j : Nat) :
    matCol (cs.foldl (fun d c => matSetCol d c ((matCol d c).map f)) m) j
      = (matCol m j).map (f^[cs.count j]) := by
  induction cs generalizing m with
  | nil => simp
  | cons c cs ih =>
    simp only [List.foldl_cons]
    by_cases hjc : j = c
    · subst hjc
      rw [ih _ (by
            rw [transform_step_eq]
            intro r hr
            rcases List.mem_map.mp hr with ⟨r0, hr0, rfl⟩
            simpa using hwf r0 hr0)
          (fun c hc => hcs c (by simp [hc]))]
      rw [matCol_step_eq m f j P hwf (hcs j (by simp)), List.map_map]
      rw [List.count_cons_self, Function.iterate_succ]
    · rw [ih _ (by
            rw [transform_step_eq]
            intro r hr
            rcases List.mem_map.mp hr with ⟨r0, hr0, rfl⟩
            simpa using hwf r0 hr0)
          (fun c hc => hcs c (by simp [hc]))]
      rw [matCol_step_ne m f c j hjc]
      rw [List.count_cons_of_ne (by simpa using hjc)]

lemma transform_fold_col_notMem (f : ℚ → ℚ) (cs : List Nat) (m : List (List ℚ))
    (j : Nat) (hj : j ∉ cs) :
    matCol (cs.foldl (fun d c => matSetCol d c ((matCol d c).map f)) m) j = matCol m j := by
  induction cs generalizing m with
  | nil => rfl
  | cons c cs ih =>
    simp only [List.foldl_cons]
    rw [ih _ (fun h => hj (by simp [h])), matCol_step_ne]
    intro h
    exact hj (by simp [h])

/-- C10: `Transform(f, cols...)` applies `f` elementwise to exactly the
listed columns: the recorded row and column counts and the data shape are
unchanged, every column whose index is not listed holds the same values as
before, and a listed column is mapped through `f` once per occurrence of
its index in the list. -/
theorem transform_effect (df : DataFrame) (f : ℚ → ℚ) (cs : List Nat)
    (hwf : ∀ r ∈ df.data, r.length = df.cols) (hcs : ∀ c ∈ cs, c < df.cols) :
    (df.Transform f cs).rows = df.rows
    ∧ (df.Transform f cs).cols = df.cols
    ∧ (df.Transform f cs).data.length = df.data.length
    ∧ (∀ r ∈ (df.Transform f cs).data, r.length = df.cols)
    ∧ (∀ j, j ∉ cs → matCol (df.Transform f cs).data j = matCol df.data j)
    ∧ (∀ j, matCol (df.Transform f cs).data j = (matCol df.data j).map (f^[cs.count j])) := by
  refine ⟨rfl, rfl, transform_fold_length f cs df.data, ?_, ?_, ?_⟩
  · exact transform_fold_wf f cs df.data df.cols hwf
  · intro j hj
    exact transform_fold_col_notMem f cs df.data j hj
  · intro j
    exact transform_fold_col f cs df.data df.cols hwf hcs j

/-- The frame of the repository's `TestTransformDF`: columns a, b, c. -/
def dfEx : DataFrame where
  data := [[1, 2, 3], [4, 5, 6], [7, 8, 9]]
  rows := 3
  cols := 3
  labels := ["a", "b", "c"]

/-- Witness for C10 on the frame of the repository's `TestTransformDF`:
a 3-by-3 frame, the function adding one, applied to columns 0 and 2. -/
theorem transform_effect_witness :
    (∀ r ∈ dfEx.data, r.length = dfEx.cols)
    ∧ (∀ c ∈ [0, 2], c < dfEx.cols)
    ∧ ((dfEx.Transform (fun x => x + 1) [0, 2]).rows = dfEx.rows
        ∧ (dfEx.Transform (fun x => x + 1) [0, 2]).cols = dfEx.cols
        ∧ (dfEx.Transform (fun x => x + 1) [0, 2]).data.length = dfEx.data.length
        ∧ (∀ r ∈ (dfEx.Transform (fun x => x + 1) [0, 2]).data, r.length = dfEx.cols)
        ∧ (∀ j, j ∉ [0, 2] →
            matCol (dfEx.Transform (fun x => x + 1) [0, 2]).data j = matCol dfEx.data j)
        ∧ (∀ j, matCol (dfEx.Transform (fun x => x + 1) [0, 2]).data j
            = (matCol dfEx.data j).map ((fun x => x + 1)^[([0, 2] : List Nat).count j]))) :=
  ⟨by decide, by decide,
    transform_effect dfEx (fun x => x + 1) [0, 2] (by decide) (by decide)⟩

/-
  LeveragePoints (diagnostics source, lines 55-88).  The code takes the QR
  factorisation of the design matrix and reads the dimensions of the
  returned Q as `n, p := q.Dims()`, shadowing the predictor count, so the
  selection matrix `trans` is built as an n-by-n Dense and filled by the
  double loop.  The loop body is

      if i == j && i < p { trans.Set(i, j, 1.0) }
      trans.Set(i, j, 0.0)

  the second Set is unconditional, so every visited entry ends at 0.  We
  embed the loop literally as a fold of entry-writes over the index pairs
  and keep the shadowed bound as an explicit argument.  Q itself comes
  from the external linear-algebra kernel and is an arbitrary matrix
  parameter here; no theorem below depends on its entries.  (Under a thin
  n-by-p reading of the old mat64 API the same loop would instead index
  `trans` out of bounds and panic; either way the function never produces
  the hat-matrix diagonal.)
-/

/-- Write a single entry of a matrix, as `trans.Set(i, j, v)` does. -/
def setEntry {n : Nat} (m : Matrix (Fin n) (Fin n) ℚ) (i j : Fin n) (v : ℚ) :
    Matrix (Fin n) (Fin n) ℚ :=
  Matrix.of fun a b => if a = i ∧ b = j then v else m a b

/-- One iteration of the `trans`-filling double loop of `LeveragePoints`:
the conditional write of 1 followed by the unconditional write of 0. -/
def transStep {n : Nat} (p : Nat) (m : Matrix (Fin n) (Fin n) ℚ)
    (ij : Fin n × Fin n) : Matrix (Fin n) (Fin n) ℚ :=
  setEntry (if ij.1 = ij.2 ∧ (ij.1 : Nat) < p then setEntry m ij.1 ij.2 1 else m)
    ij.1 ij.2 0

/-- The row-major visiting order of the double loop. -/
def ijPairs (n : Nat) : List (Fin n × Fin n) :=
  (List.finRange n).flatMap fun i => (List.finRange n).map fun j => (i, j)

/-- The `trans` matrix after the double loop, starting from the all-zero
matrix a fresh `mat64.NewDense` holds. -/
def transMat (n p : Nat) : Matrix (Fin n) (Fin n) ℚ :=
  (ijPairs n).foldl (transStep p) 0

lemma transStep_zero {n : Nat} (p : Nat) (ij : Fin n × Fin n) :
    transStep p (0 : Matrix (Fin n) (Fin n) ℚ) ij = 0 := by
  funext a b
  simp only [transStep, setEntry, Matrix.of_apply, Matrix.zero_apply]
  by_cases h : a = ij.1 ∧ b = ij.2
  · rw [if_pos h]
  · rw [if_neg h]
    by_cases hc : ij.1 = ij.2 ∧ (ij.1 : Nat) < p
    · rw [if_pos hc, Matrix.of_apply, if_neg h]
    · rw [if_neg hc]
      exact Matrix.zero_apply a b

lemma foldl_transStep_zero {n : Nat} (p : Nat) (l : List (Fin n × Fin n)) :
    l.foldl (transStep p) (0 : Matrix (Fin n) (Fin n) ℚ) = 0 := by
  induction l with
  | nil => rfl
  | cons x xs ih => rw [List.foldl_cons, transStep_zero, ih]

lemma transMat_eq_zero (n p : Nat) : transMat n p = 0 :=
  foldl_transStep_zero p (ijPairs n)

/-- `LeveragePoints` from the diagnostics source: H = (Q · trans) · Qᵀ and
the returned sequence is the diagonal of H.  `q` is the matrix the
external QR kernel returns; the shadowed bound used in the loop condition
equals the column count of `q`, here `n`. -/
def LeveragePoints {n : Nat} (q : Matrix (Fin n) (Fin n) ℚ) : Fin n → ℚ :=
  fun i => ((q * transMat n n) * q.transpose) i i

lemma LeveragePoints_apply_zero {n : Nat} (q : Matrix (Fin n) (Fin n) ℚ) (i : Fin n) :
    LeveragePoints q i = 0 := by
  unfold LeveragePoints
  rw [transMat_eq_zero, Matrix.mul_zero, Matrix.zero_mul]
  rfl

/-- C1: the claim asserts that the leverage values lie in [0,1] and sum to
the predictor count p.  On the code they are identically zero: the
unconditional `trans.Set(i, j, 0.0)` wipes the selection matrix, so
H = Q·0·Qᵀ = 0.  Evaluated here at a 3-observation model (the orthogonal
factor taken as the identity): every value is 0, the sum is 0, and the
repository's own test expectation 0.302 for the first leverage value (21
observations, p = 4) cannot be met, nor can any positive p be the sum. -/
theorem leveragePoints_all_zero_on_example :
    (∀ i, LeveragePoints (1 : Matrix (Fin 3) (Fin 3) ℚ) i = 0)
    ∧ (Finset.univ.sum fun i => LeveragePoints (1 : Matrix (Fin 3) (Fin 3) ℚ) i) = 0
    ∧ ((302 : ℚ) / 1000 ≠ 0) ∧ ((4 : ℚ) ≠ 0) := by
  refine ⟨fun i => LeveragePoints_apply_zero 1 i, ?_, by norm_num, by norm_num⟩
  simp [LeveragePoints_apply_zero]

/-- Modelled from the spec: `MeanSquaredError = sum(residuals²) / (n − p)`
(section 4.1); the OLS source file is not under src/. -/
def MeanSquaredError {n : Nat} (res : Fin n → ℚ) (p : Nat) : ℚ :=
  (Finset.univ.sum fun i => res i ^ 2) / ((n : ℚ) - (p : ℚ))

/-- `CooksDistance` from the diagnostics source, sequentialised: the value
written at slot i is `(residual_i² / (p·MSE)) · (h_i / (1−h_i)²)` with h
the output of `LeveragePoints`.  (The real function races: each goroutine
reads the shared loop variable rather than its parameter, and the channel
drain waits for only 4 of the n goroutines, so for n > 4 the slice can be
returned before most slots are written.) -/
def CooksDistance {n : Nat} (q : Matrix (Fin n) (Fin n) ℚ) (res : Fin n → ℚ)
    (p : Nat) : Fin n → ℚ :=
  let h := LeveragePoints q
  let mse := MeanSquaredError res p
  fun i => (res i ^ 2 / ((p : ℚ) * mse)) * (h i / (1 - h i) ^ 2)

/-- C2: the claim gives Cook's distance by the standard formula over the
model's leverage values (section 4.2's hat-matrix diagonal).  Because the
code's leverage values are identically zero, every distance it computes is
zero — the leverage factor h/(1−h)² vanishes — contradicting the
repository's own test expectation 0.154 for the first observation. -/
theorem cooksDistance_all_zero_on_example :
    (∀ i, CooksDistance (1 : Matrix (Fin 3) (Fin 3) ℚ)
      (fun i => (![1, -2, 1] : Fin 3 → ℚ) i) 2 i = 0)
    ∧ ((154 : ℚ) / 1000 ≠ 0) := by
  refine ⟨fun i => ?_, by norm_num⟩
  simp [CooksDistance, LeveragePoints_apply_zero]

/-- `PRESS` from the diagnostics source: the length-n sequence whose i-th
entry is `residuals[i] / (1 - h_diag[i])`, with `h_diag` the output of
`LeveragePoints`; no refit is involved. -/
def PRESS {n : Nat} (q : Matrix (Fin n) (Fin n) ℚ) (res : Fin n → ℚ) : List ℚ :=
  List.ofFn fun i : Fin n => res i / (1 - LeveragePoints q i)

/-- C3: the claim asserts PRESS_i = residual_i / (1 − h_ii) with h the
section-4.2 hat-matrix diagonal — the reading its cited spec property
(reproducing the brute-force leave-one-out residual) requires.  On the
code the divisor's leverage is identically zero (C1's bug), so `press()`
returns the raw residual vector unchanged.  Evaluated at a 3-observation
model with residuals (1, −2, 1): the output is exactly (1, −2, 1); yet
with any genuine nonzero hat value — such as the 0.302 of the
repository's own test fixture — the claimed element `residual/(1 − h)`
differs from the raw residual the code returns. -/
theorem press_returns_raw_residuals_on_example :
    PRESS (1 : Matrix (Fin 3) (Fin 3) ℚ) (fun i => (![1, -2, 1] : Fin 3 → ℚ) i)
      = [1, -2, 1]
    ∧ (1 : ℚ) / (1 - 302 / 1000) ≠ 1 := by
  constructor
  · simp [PRESS, LeveragePoints_apply_zero, List.ofFn_succ]
  · norm_num

/-
  VarianceCovarianceMatrix (diagnostics source, lines 126-149).  The code
  takes R from the QR factorisation, copies its leading p-by-p block into
  Raug, inverts it with mat64.Inverse — panicking with the string
  "R matrix is not invertible" if the inversion reports an error — and
  returns Rinverse · Rinverseᵀ.  We model the leading block directly as a
  p-by-p matrix over ℚ; exact inversion fails precisely when the
  determinant is zero.
-/

/-- Explicit matrix inversion over ℚ, `det⁻¹ • adjugate`: the executable
counterpart of Mathlib's `Matrix.inv`. -/
def matInv {p : Nat} (R : Matrix (Fin p) (Fin p) ℚ) : Matrix (Fin p) (Fin p) ℚ :=
  R.det⁻¹ • R.adjugate

lemma matInv_eq_inv {p : Nat} (R : Matrix (Fin p) (Fin p) ℚ) : matInv R = R⁻¹ := by
  rw [matInv, Matrix.inv_def, Ring.inverse_eq_inv]

/-- The matrix returned by `VarianceCovarianceMatrix` on the success path:
`varCov = Rinverse · Rinverseᵀ`. -/
def VarianceCovarianceMatrix {p : Nat} (R : Matrix (Fin p) (Fin p) ℚ) :
    Matrix (Fin p) (Fin p) ℚ :=
  matInv R * (matInv R).transpose

/-- The observable outcome of calling `VarianceCovarianceMatrix`: the Go
function either returns a matrix or panics; it has no error return, so an
error value reaching the caller is a third, never-taken possibility kept
here to state claim C5. -/
inductive VCMResult (p : Nat) where
  | ok (m : Matrix (Fin p) (Fin p) ℚ)
  | errReturned (e : GlassoError)
  | panicked (msg : String)

/-- `VarianceCovarianceMatrix` with its error handling: inversion of the
leading block fails exactly on a zero determinant, and the code then
panics with the fixed message. -/
def VarianceCovarianceMatrixRun {p : Nat} (R : Matrix (Fin p) (Fin p) ℚ) :
    VCMResult p :=
  if R.det = 0 then .panicked ("R matrix is not invertible")
  else .ok (VarianceCovarianceMatrix R)

/-- C4: for a fitted model whose R factor is invertible, the returned
matrix is symmetric and equals (XᵀX)⁻¹, where X = Q·R is the QR
factorisation of the design matrix (Q with orthonormal columns), and it is
a genuine inverse: multiplied by XᵀX it gives the identity. -/
theorem varianceCovarianceMatrix_correct {n p : Nat}
    (X Q : Matrix (Fin n) (Fin p) ℚ) (R : Matrix (Fin p) (Fin p) ℚ)
    (hQR : X = Q * R) (hQ : Q.transpose * Q = 1) (hR : IsUnit R.det) :
    VarianceCovarianceMatrix R = (X.transpose * X)⁻¹
    ∧ (VarianceCovarianceMatrix R).transpose = VarianceCovarianceMatrix R
    ∧ VarianceCovarianceMatrix R * (X.transpose * X) = 1 := by
  have hXX : X.transpose * X = R.transpose * R := by
    rw [hQR, Matrix.transpose_mul, Matrix.mul_assoc, ← Matrix.mul_assoc Q.transpose Q R,
      hQ, Matrix.one_mul]
  have hvc : VarianceCovarianceMatrix R = R⁻¹ * (R⁻¹).transpose := by
    rw [VarianceCovarianceMatrix, matInv_eq_inv]
  refine ⟨?_, ?_, ?_⟩
  · rw [hvc, hXX, Matrix.mul_inv_rev, Matrix.transpose_nonsing_inv]
  · rw [hvc, Matrix.transpose_mul, Matrix.transpose_transpose]
  · rw [hvc, hXX, Matrix.transpose_nonsing_inv, Matrix.mul_assoc,
      ← Matrix.mul_assoc (R.transpose)⁻¹ R.transpose R,
      Matrix.nonsing_inv_mul _ (by rwa [Matrix.det_transpose]), Matrix.one_mul,
      Matrix.nonsing_inv_mul _ hR]

/-- Witness for C4 at the one-predictor design X = Q = R = identity. -/
theorem varianceCovarianceMatrix_correct_witness :
    ((1 : Matrix (Fin 1) (Fin 1) ℚ) = 1 * 1)
    ∧ ((1 : Matrix (Fin 1) (Fin 1) ℚ).transpose * 1 = 1)
    ∧ IsUnit (1 : Matrix (Fin 1) (Fin 1) ℚ).det
    ∧ (VarianceCovarianceMatrix (1 : Matrix (Fin 1) (Fin 1) ℚ)
        = ((1 : Matrix (Fin 1) (Fin 1) ℚ).transpose * 1)⁻¹
      ∧ (VarianceCovarianceMatrix (1 : Matrix (Fin 1) (Fin 1) ℚ)).transpose
        = VarianceCovarianceMatrix (1 : Matrix (Fin 1) (Fin 1) ℚ)
      ∧ VarianceCovarianceMatrix (1 : Matrix (Fin 1) (Fin 1) ℚ)
          * ((1 : Matrix (Fin 1) (Fin 1) ℚ).transpose * 1) = 1) :=
  ⟨by rw [one_mul], by rw [Matrix.transpose_one, one_mul],
    by rw [Matrix.det_one]; exact isUnit_one,
    varianceCovarianceMatrix_correct 1 1 1 (by rw [one_mul])
      (by rw [Matrix.transpose_one, one_mul]) (by rw [Matrix.det_one]; exact isUnit_one)⟩

/-- C5 counterexample: at the singular one-by-one R factor [[0]], the
function panics with the fixed message; it does not return a
`SingularMatrixError` (or any error value) to the caller — its Go
signature has no error result, and no `SingularMatrixError` exists in the
repository. -/
theorem varianceCovarianceMatrix_panics_not_error :
    VarianceCovarianceMatrixRun (Matrix.of ![![(0 : ℚ)]])
        = VCMResult.panicked ("R matrix is not invertible")
    ∧ VCMResult.panicked ("R matrix is not invertible")
        ≠ (VCMResult.errReturned GlassoError.SingularMatrixError : VCMResult 1) := by
  constructor
  · rw [VarianceCovarianceMatrixRun, if_pos]
    rw [Matrix.det_fin_one]
    rfl
  · intro h
    exact VCMResult.noConfusion h

/-- C5 amended: the call fails exactly when the leading p-by-p block of R
is not invertible, and the failure is a panic carrying the message
"R matrix is not invertible" — fatal, not retried, with no partial matrix
returned — rather than a `SingularMatrixError` value handed to the
caller. -/
theorem varianceCovarianceMatrix_panic_iff_singular {p : Nat}
    (R : Matrix (Fin p) (Fin p) ℚ) :
    (VarianceCovarianceMatrixRun R = VCMResult.panicked ("R matrix is not invertible")
      ↔ ¬ IsUnit R.det)
    ∧ ((∃ m, VarianceCovarianceMatrixRun R = VCMResult.ok m) ↔ IsUnit R.det)
    ∧ ∀ e, VarianceCovarianceMatrixRun R ≠ VCMResult.errReturned e := by
  rw [VarianceCovarianceMatrixRun]
  by_cases h : R.det = 0
  · rw [if_pos h]
    refine ⟨⟨fun _ => by simp [h], fun _ => rfl⟩, ⟨?_, ?_⟩, ?_⟩
    · rintro ⟨m, hm⟩
      exact VCMResult.noConfusion hm
    · intro hu
      rw [h] at hu
      exact absurd hu not_isUnit_zero
    · intro e h2
      exact VCMResult.noConfusion h2
  · rw [if_neg h]
    refine ⟨⟨fun h2 => VCMResult.noConfusion h2, fun hnu => ?_⟩, ⟨fun _ => ?_, ?_⟩, ?_⟩
    · exact absurd (isUnit_iff_ne_zero.mpr h) hnu
    · exact isUnit_iff_ne_zero.mpr h
    · intro _
      exact ⟨VarianceCovarianceMatrix R, rfl⟩
    · intro e h2
      exact VCMResult.noConfusion h2

/-
  The OLS fit itself lives in a source file that is not available (only
  its callers and tests are).  The pieces of it the diagnostics need are
  modelled from the specification, section 4.1: the fit fails with
  DimensionError when the response length differs from the row count or
  when the design has fewer rows than columns, and with
  RankDeficiencyError when R is singular — over exact arithmetic, exactly
  when det(XᵀX) = 0.
-/

/-- Remove column j from every row, for the Laplace expansion minors. -/
def minorCols (m : List (List ℚ)) (j : Nat) : List (List ℚ) :=
  m.map (fun r => r.eraseIdx j)

/-- The alternating sign (−1)ʲ of the Laplace expansion. -/
def altSign : Nat → ℚ
  | 0 => 1
  | j + 1 => - altSign j

/-- Determinant of a square list matrix by Laplace expansion along the
first row; the fuel argument bounds the recursion by the dimension. -/
def detL : Nat → List (List ℚ) → ℚ
  | 0 => fun _ => 1
  | fuel + 1 => fun m =>
      match m with
      | [] => 1
      | r :: rest =>
          (List.range r.length).foldl
            (fun acc j => acc + altSign j * r.getD j 0 * detL fuel (minorCols rest j)) 0

/-- Entry (i, j) of the Gram matrix XᵀX of a row-major list matrix. -/
def dotCols (X : List (List ℚ)) (i j : Nat) : ℚ :=
  (X.map (fun r => r.getD i 0 * r.getD j 0)).foldl (· + ·) 0

/-- The p-by-p Gram matrix XᵀX of a row-major list matrix. -/
def gramL (X : List (List ℚ)) (p : Nat) : List (List ℚ) :=
  (List.range p).map (fun i => (List.range p).map (fun j => dotCols X i j))

/-- det(XᵀX) of a row-major list matrix with p columns. -/
def detGram (X : List (List ℚ)) (p : Nat) : ℚ :=
  detL p (gramL X p)

/-- Modelled from the spec (section 4.1): the OLS `Train` on a design
matrix X and response y succeeds, or fails with `DimensionError` when the
response length differs from the row count or the design has fewer rows
than columns, or fails with `RankDeficiencyError` when X is
rank-deficient (R singular; over exact arithmetic, det(XᵀX) = 0).  The
OLS source file is not under src/. -/
def OLS.Train (X : List (List ℚ)) (y : List ℚ) : Except GlassoError Unit :=
  let m := X.length
  let p := (X.headD []).length
  if y.length ≠ m then .error .DimensionError
  else if m < p then .error .DimensionError
  else if detGram X p = 0 then .error .RankDeficiencyError
  else .ok ()

/-- The observable outcome of a diagnostic call that can mutate the data
container: the produced values together with the container's contents
when the call ends, normally or by panic.  An error value reaching the
caller is a third, never-taken possibility kept to state claims C6/C7. -/
inductive DiagResult where
  | ok (vals : List ℚ) (data : List (List ℚ))
  | errReturned (e : GlassoError) (data : List (List ℚ))
  | panicked (msg : String) (data : List (List ℚ))
deriving DecidableEq

/-- The loop of `VarianceInflationFactors` (diagnostics source, lines
158-183): for each predictor index the current matrix's column idx is
read as the new response, the column is overwritten with zeros, and the
model is retrained — a training error panics with the fixed string
"Error Occured calculating VIF" (sic) with no restoration; the saved copy
`orig` is written back only after the loop completes.  The zeroed columns
accumulate across iterations, exactly as in the source.  `rsqFn` stands
for the retrained model's R² read on success (OLS source not under
src/); no theorem depends on its values. -/
def vifLoop (rsqFn : List (List ℚ) → ℚ) (n : Nat) (orig : List (List ℚ)) :
    Nat → Nat → List ℚ → List (List ℚ) → DiagResult
  | 0, _, vifs, _ => .ok vifs orig
  | rem + 1, idx, vifs, dataCur =>
      let col := matCol dataCur idx
      let dataCur1 := matSetCol dataCur idx (List.replicate n 0)
      match OLS.Train dataCur1 col with
      | .error _ => .panicked ("Error Occured calculating VIF") dataCur1
      | .ok _ =>
          vifLoop rsqFn n orig rem (idx + 1)
            (vifs.set idx (1 / (1 - rsqFn dataCur1))) dataCur1

/-- `VarianceInflationFactors`: save a copy of the data, run the loop over
the p predictors, restore the copy on the normal exit. -/
def OLS.VarianceInflationFactors (rsqFn : List (List ℚ) → ℚ)
    (data : List (List ℚ)) (n p : Nat) : DiagResult :=
  vifLoop rsqFn n data p 0 (List.replicate p 0) data

/-- C6: the claim says the data container is restored after any call to
VIF, DFFITS or DFBETA, even one that errors partway.  It is not: on the
2-by-2 design [[1,2],[3,4]], zeroing column 0 makes the first refit
rank-deficient, the loop panics before the restoring assignment runs, and
the container is left holding [[0,2],[0,4]], not its pre-call
contents. -/
theorem vif_error_leaves_data_mutated :
    OLS.VarianceInflationFactors (fun _ => 0) [[1, 2], [3, 4]] 2 2
      = DiagResult.panicked ("Error Occured calculating VIF") [[0, 2], [0, 4]]
    ∧ ([[(0 : ℚ), 2], [0, 4]] : List (List ℚ)) ≠ [[1, 2], [3, 4]] := by
  constructor
  · norm_num [OLS.VarianceInflationFactors, vifLoop, matCol, matSetCol, OLS.Train,
      detGram, gramL, dotCols, detL, minorCols, altSign, List.range_succ,
      List.replicate_succ]
  · decide

/-- The leverage sequence as the source computes it, in list form: every
entry is 0 (lemma `LeveragePoints_apply_zero`). -/
def LeveragePointsList (n : Nat) : List ℚ :=
  List.replicate n 0

/-- The loop of `DFFITS` (diagnostics source, lines 213-252),
sequentialised in spawn order: each iteration replaces the data with
`RemoveRow(data, i)` — the removals accumulate, since the assignment
targets the shared model — then retrains on the model's residual vector;
a training error panics with the error's message and no restoration.
`fitFn` stands for the refitted model's fitted values and MSE read on
success (OLS source not under src/), `sqrtFn` for math.Sqrt; no theorem
depends on their values. -/
def dffitsLoop (fitFn : List (List ℚ) → List ℚ → List ℚ × ℚ) (sqrtFn : ℚ → ℚ)
    (residuals fitted leverage : List ℚ) :
    Nat → Nat → List ℚ → List (List ℚ) → Except (String × List (List ℚ)) (List ℚ)
  | 0, _, dffits, _ => .ok dffits
  | rem + 1, i, dffits, dataCur =>
      let dataCur1 := dataCur.eraseIdx i
      match OLS.Train dataCur1 residuals with
      | .error e => .error (e.message, dataCur1)
      | .ok _ =>
          let fr := fitFn dataCur1 residuals
          let v := (fitted.getD i 0 - fr.1.getD i 0) / sqrtFn (fr.2 * leverage.getD i 0)
          dffitsLoop fitFn sqrtFn residuals fitted leverage rem (i + 1)
            (dffits.set i v) dataCur1

/-- `DFFITS`: record the original data pointer, take the (all-zero)
leverage sequence, decrement the row count, run the n leave-one-out
iterations, and restore the pointer only on the normal exit.  There is no
guard on n relative to p anywhere before the loop. -/
def OLS.DFFITS (fitFn : List (List ℚ) → List ℚ → List ℚ × ℚ) (sqrtFn : ℚ → ℚ)
    (data : List (List ℚ)) (residuals fitted : List ℚ) (n : Nat) : DiagResult :=
  let orig := data
  let leverage := LeveragePointsList n
  match dffitsLoop fitFn sqrtFn residuals fitted leverage n 0
      (List.replicate n 0) data with
  | .error pair => .panicked pair.1 pair.2
  | .ok dffits => .ok dffits orig

/-- C7: the claim says that with n ≤ p+1 the call fails with
`InsufficientDataError` before attempting the leave-one-out loop.  There
is no such check: on a 3-by-2 design (n = p+1) the code enters the loop,
removes row 0, and the first refit already fails — the model is trained
on the full-length residual vector against the 2-row matrix — so the call
panics from inside the loop with a dimensionality message, with the data
left row-removed, and no `InsufficientDataError` is ever produced. -/
theorem dffits_no_insufficient_data_check :
    OLS.DFFITS (fun _ _ => ([], 0)) (fun x => x) [[1, 0], [0, 1], [1, 1]]
        [1, -1, 2] [1, 2, 3] 3
      = DiagResult.panicked ("Error caused by wrong dimensionality") [[0, 1], [1, 1]]
    ∧ OLS.DFFITS (fun _ _ => ([], 0)) (fun x => x) [[1, 0], [0, 1], [1, 1]]
        [1, -1, 2] [1, 2, 3] 3
      ≠ DiagResult.errReturned GlassoError.InsufficientDataError
          [[1, 0], [0, 1], [1, 1]] := by
  have h : OLS.DFFITS (fun _ _ => ([], 0)) (fun x => x) [[1, 0], [0, 1], [1, 1]]
      [1, -1, 2] [1, 2, 3] 3
      = DiagResult.panicked ("Error caused by wrong dimensionality") [[0, 1], [1, 1]] := by
    norm_num [OLS.DFFITS, dffitsLoop, OLS.Train, LeveragePointsList,
      GlassoError.message]
  refine ⟨h, ?_⟩
  rw [h]
  decide

/-
  Forward stagewise (forward_stagewise.go).  `Train` standardizes the
  columns, zeroes the coefficients, centers the response, and loops while
  `isCorrelation` holds.  Both the loop body and `isCorrelation` build
  their correlation slice as `cors := make([]float64, 0, f.x.cols)` — a
  slice of LENGTH ZERO — and then assign `cors[i] = ...`, so the first
  executed fill panics with an index-out-of-range runtime error.
  `isCorrelation` short-circuits to true on the first round before
  touching the slice, so the first round's body is always reached and the
  body's fill always panics when there is at least one column.

  The utility helpers of the repository's util package are not under
  src/: `sum`, `prod`, `diff`, `multSlice`, `rep` and `subtractMean` have
  evident ℚ counterparts below; `standardize` and `cor` need real square
  roots and stay abstract parameters; `max` is modelled as a plain fold
  maximum.  All of them sit on paths after the panic, and no theorem
  depends on their values.
-/

def sumList (l : List ℚ) : ℚ := l.foldl (· + ·) 0

def prodList (a b : List ℚ) : List ℚ := List.zipWith (· * ·) a b

def diffList (a b : List ℚ) : List ℚ := List.zipWith (· - ·) a b

def multSlice (l : List ℚ) (c : ℚ) : List ℚ := l.map (· * c)

def sign (x : ℚ) : ℚ := if 0 < x then 1 else if x < 0 then -1 else 0

def maxList (l : List ℚ) : ℚ := l.foldl max (l.headD 0)

/-- Modelled from the spec (section 4.10): the initial residual is the
mean-centered response. -/
def subtractMean (y : List ℚ) : List ℚ :=
  y.map (fun v => v - sumList y / (y.length : ℚ))

/-- Go's `sort.Search`: binary search for the smallest index in [i, j)
satisfying the predicate. -/
def sortSearchAux (pred : Nat → Bool) (i j : Nat) : Nat :=
  if h : i < j then
    if pred ((i + j) / 2) then sortSearchAux pred i ((i + j) / 2)
    else sortSearchAux pred ((i + j) / 2 + 1) j
  else i
termination_by j - i
decreasing_by
  · omega
  · omega

/-- Go's `sort.SearchFloat64s(a, x)`, as called on the (unsorted)
correlation slice. -/
def sortSearch (a : List ℚ) (x : ℚ) : Nat :=
  sortSearchAux (fun h => decide (x ≤ a.getD h 0)) 0 a.length

/-- A Go slice write `cors[i] = v`: in-range writes update, out-of-range
writes panic (modelled as `none`). -/
def setAtChecked (l : List ℚ) (i : Nat) (v : ℚ) : Option (List ℚ) :=
  if i < l.length then some (l.set i v) else none

/-- The correlation-slice fill loop shared by `Train` and
`isCorrelation`: starting from the LENGTH-ZERO slice
`make([]float64, 0, cols)`, write `cor(column i, target)` at index i for
each i < cols.  The first write is already out of range. -/
def fillCors (corFn : List ℚ → List ℚ → ℚ) (d : List (List ℚ)) (cols : Nat)
    (target : List ℚ) : Option (List ℚ) :=
  (List.range cols).foldl
    (fun acc i => acc.bind (fun cur => setAtChecked cur i (corFn (matCol d i) target)))
    (some [])

/-- `isCorrelation`: true without touching the slice on the first run;
afterwards, fill the correlation slice against the argument and compare
its maximum with delta.  `none` is the out-of-range panic. -/
def isCorrelationModel (corFn : List ℚ → List ℚ → ℚ) (data1 : List (List ℚ))
    (cols : Nat) (delta : ℚ) (firstRun : Bool) (r : List ℚ) : Option Bool :=
  if firstRun then some true
  else (fillCors corFn data1 cols r).map (fun cors => ! decide (maxList cors < delta))

/-- The observable outcome of forward-stagewise training.  The Go method
returns nil or panics; an error value reaching the caller and fuel
exhaustion (for the unbounded `for` loop) are kept to state C9. -/
inductive FSResult where
  | ok (betas : List ℚ)
  | errReturned (e : GlassoError)
  | panicked (msg : String)
  | fuelExhausted
deriving DecidableEq

/-- The `for f.isCorrelation(r)` loop of `Train` (forward_stagewise.go,
lines 68-92): on continuation, fill the correlation slice against the
ORIGINAL response y (not the residual), pick the index of the plain (not
absolute) maximum with a binary search over the unsorted slice, copy the
column into the workspace, step the coefficient by
`epsilon · sign(sum(prod(column, r)))`, and shrink the residual.  The Go
loop is unbounded; the fuel argument makes the model total. -/
def forwardLoop (corFn : List ℚ → List ℚ → ℚ) (data1 : List (List ℚ)) (cols : Nat)
    (eps delta : ℚ) (y : List ℚ) :
    Nat → Bool → List ℚ → List ℚ → List (List ℚ) → FSResult
  | 0, _, _, _, _ => .fuelExhausted
  | fuel + 1, firstRun, r, betas, xmat =>
      match isCorrelationModel corFn data1 cols delta firstRun r with
      | none => .panicked ("index out of range")
      | some false => .ok betas
      | some true =>
          match fillCors corFn data1 cols y with
          | none => .panicked ("index out of range")
          | some cors =>
              let maxCor := maxList cors
              let maxIdx := sortSearch cors maxCor
              let xmat1 := matSetCol xmat maxIdx (matCol data1 maxIdx)
              let dj := eps * sign (sumList (prodList (matCol xmat1 maxIdx) r))
              let betas1 := betas.set maxIdx (betas.getD maxIdx 0 + dj)
              let r1 := diffList r (multSlice (matCol xmat1 maxIdx) dj)
              forwardLoop corFn data1 cols eps delta y fuel false r1 betas1 xmat1

/-- `ForwardStage.Train`: standardize every column (the standardizing
map `stdFn` is abstract — it needs real square roots), zero the
coefficients, center the response, allocate the zero workspace matrix,
and run the loop.  `corFn` is the abstract correlation helper. -/
def ForwardStage.Train (stdFn : List ℚ → List ℚ) (corFn : List ℚ → List ℚ → ℚ)
    (fuel rows cols : Nat) (eps delta : ℚ) (data : List (List ℚ)) (y : List ℚ) :
    FSResult :=
  let data1 := (List.range cols).foldl (fun d i => matSetCol d i (stdFn (matCol d i))) data
  let betas0 := List.replicate cols (0 : ℚ)
  let r0 := subtractMean y
  let x0 : List (List ℚ) := List.replicate rows (List.replicate cols (0 : ℚ))
  forwardLoop corFn data1 cols eps delta y fuel true r0 betas0 x0

lemma foldl_bind_none (g : Nat → List ℚ → Option (List ℚ)) (l : List Nat) :
    l.foldl (fun acc i => acc.bind (g i)) (none : Option (List ℚ)) = none := by
  induction l with
  | nil => rfl
  | cons x xs ih => simpa using ih

/-- Filling the correlation slice panics whenever there is at least one
column: the slice starts at length zero, so the write at index 0 is
already out of range. -/
lemma fillCors_eq_none (corFn : List ℚ → List ℚ → ℚ) (d : List (List ℚ))
    (cols : Nat) (target : List ℚ) (hc : 0 < cols) :
    fillCors corFn d cols target = none := by
  obtain ⟨c, rfl⟩ : ∃ c, cols = c + 1 := ⟨cols - 1, by omega⟩
  rw [fillCors, List.range_succ_eq_map, List.foldl_cons]
  have h0 : setAtChecked [] 0 (corFn (matCol d 0) target) = none := by
    simp [setAtChecked]
  rw [show ((some [] : Option (List ℚ)).bind
      (fun cur => setAtChecked cur 0 (corFn (matCol d 0) target))) = none from h0]
  exact (List.foldl_map _ _ _ _).symm ▸ foldl_bind_none _ _

/-- Every training run with fuel and at least one predictor column panics
in the first round: `isCorrelation` short-circuits to true, and the body's
correlation fill writes into the length-zero slice. -/
lemma fsTrain_round1_panic (stdFn : List ℚ → List ℚ) (corFn : List ℚ → List ℚ → ℚ)
    (fuel rows cols : Nat) (eps delta : ℚ) (data : List (List ℚ)) (y : List ℚ)
    (hf : 0 < fuel) (hc : 0 < cols) :
    ForwardStage.Train stdFn corFn fuel rows cols eps delta data y
      = FSResult.panicked ("index out of range") := by
  obtain ⟨k, rfl⟩ : ∃ k, fuel = k + 1 := ⟨fuel - 1, by omega⟩
  rw [ForwardStage.Train]
  rw [forwardLoop]
  rw [isCorrelationModel, if_pos rfl]
  rw [fillCors_eq_none corFn _ cols y hc]

/-- C8: the claim describes the intended round: pick the predictor with
maximum absolute correlation to the current residual, step its
coefficient, shrink the residual, stop below delta.  The code never
completes a round: on a 3-by-3 design the very first round panics with an
index-out-of-range error, because the correlation slice is created with
length zero and then indexed.  (The body moreover correlates the
predictors with the original response rather than the residual, and takes
the signed, not absolute, maximum — contradicting the claim and the
function's own comment.) -/
theorem forwardStagewise_first_round_panics_example :
    ForwardStage.Train id (fun _ _ => 0) 4 3 3 1 (1 / 2)
        [[1, 0, 0], [0, 1, 0], [0, 0, 1]] [1, 1, 1]
      = FSResult.panicked ("index out of range") :=
  fsTrain_round1_panic id (fun _ _ => 0) 4 3 3 1 (1 / 2)
    [[1, 0, 0], [0, 1, 0], [0, 0, 1]] [1, 1, 1] (by norm_num) (by norm_num)

/-- C9 counterexample: at a concrete configuration (including a small
epsilon and delta), training neither runs to a round cap nor produces a
`NonConvergenceError` — no such error exists in the code — it panics in
the first round. -/
theorem forwardStagewise_no_nonconvergence_error :
    ForwardStage.Train id (fun _ _ => 0) 9 3 2 (1 / 10) (1 / 100)
        [[1, 2], [3, 4], [5, 6]] [1, 2, 3]
      = FSResult.panicked ("index out of range")
    ∧ FSResult.panicked ("index out of range")
      ≠ FSResult.errReturned GlassoError.NonConvergenceError :=
  ⟨fsTrain_round1_panic id (fun _ _ => 0) 9 3 2 (1 / 10) (1 / 100)
      [[1, 2], [3, 4], [5, 6]] [1, 2, 3] (by norm_num) (by norm_num),
    by decide⟩

/-- C9 amended: training always halts in finitely many rounds, but not by
a configurable round cap with `NonConvergenceError` (neither exists in the
code): for every configuration with at least one predictor column and any
positive fuel, the run ends in the first round with an index-out-of-range
panic from the zero-length correlation slice. -/
theorem forwardStagewise_always_panics_round_one (stdFn : List ℚ → List ℚ)
    (corFn : List ℚ → List ℚ → ℚ) (fuel rows cols : Nat) (eps delta : ℚ)
    (data : List (List ℚ)) (y : List ℚ) (hf : 0 < fuel) (hc : 0 < cols) :
    ForwardStage.Train stdFn corFn fuel rows cols eps delta data y
      = FSResult.panicked ("index out of range") :=
  fsTrain_round1_panic stdFn corFn fuel rows cols eps delta data y hf hc

/-- Witness for the amended C9 at a concrete configuration. -/
theorem forwardStagewise_always_panics_round_one_witness :
    (0 < 7) ∧ (0 < 3)
    ∧ ForwardStage.Train id (fun _ _ => 0) 7 4 3 2 (1 / 5)
        [[1, 1, 1], [2, 1, 0], [0, 3, 1], [1, 0, 2]] [1, 0, 2, 1]
      = FSResult.panicked ("index out of range") :=
  ⟨by norm_num, by norm_num,
    forwardStagewise_always_panics_round_one id (fun _ _ => 0) 7 4 3 2 (1 / 5)
      [[1, 1, 1], [2, 1, 0], [0, 3, 1], [1, 0, 2]] [1, 0, 2, 1]
      (by norm_num) (by norm_num)⟩
